/-
Verification of the social-feed backend ("chirp"): a shallow embedding of
the Tweet/User data model (src/models/Tweet.js), the tweet routes
(timeline, create, get, delete, like, retweet, comments, user tweets),
the user routes (profile, follow toggle, followers/following) and the
search routes, together with proofs of the specified properties.

Modelling conventions:
- MongoDB ObjectIds are `Nat`.
- A Mongo collection is a `List` of documents; `findById` is the first
  document with the given id (ids are unique in a real collection).
- Mongoose array update operators: `$addToSet` appends when absent,
  `$pull` removes every occurrence.
- Mongoose validation on `save()`: the Tweet schema declares
  `content: { required: true, trim: true, maxlength: 280 }`; a string
  path with `required: true` rejects the empty string, and `trim` is a
  setter applied before validation.  `findByIdAndUpdate` does not run
  these validators (mongoose default).
- An express handler is a pure function from the request and the store
  to the new store and a response; a thrown error caught by the
  handler's `catch` block is the `serverError` response.
-/
import Mathlib

abbrev UserId := Nat
abbrev TweetId := Nat

/-- Responses of the HTTP handlers, by status: 400, 401, 404 carry the
JSON message from the source; 500 is the generic catch-all
`'Server error'` response of every handler's `catch` block. -/
inductive ApiError where
  | badRequest (msg : String)
  | unauthorized (msg : String)
  | notFound (msg : String)
  | serverError
  deriving Repr, DecidableEq

/-- The `$addToSet` operator: append the element when it is not already a member. -/
def addToSet (x : α) [DecidableEq α] (l : List α) : List α :=
  if x ∈ l then l else l ++ [x]

/-- The `$pull` operator: remove every occurrence of the element. -/
def pull (x : α) [DecidableEq α] (l : List α) : List α :=
  l.filter (fun y => y ≠ x)

/-- A document of the `Tweet` collection (src/models/Tweet.js).
`createdAt` comes from `timestamps: true`. -/
structure Tweet where
  id : TweetId
  user : UserId
  content : String
  image : String
  likes : List UserId
  retweets : List UserId
  retweetData : Option TweetId
  replyTo : Option TweetId
  pinned : Bool
  createdAt : Nat
  deriving Repr, DecidableEq

abbrev TweetStore := List Tweet

/-- Lookup `Tweet.findById`: first document with the given id. -/
def findTweet (db : TweetStore) (id : TweetId) : Option Tweet :=
  db.find? (fun t => t.id = id)

/-- Update `Tweet.findByIdAndUpdate`: apply the update to every document with
the given id (there is at most one in a real collection); runs no
schema validators. -/
def updateTweet (db : TweetStore) (id : TweetId) (f : Tweet → Tweet) : TweetStore :=
  db.map (fun t => if t.id = id then f t else t)

/-- The `trim: true` setter: strip leading and trailing whitespace. -/
def strTrim (s : String) : String :=
  ⟨((s.data.dropWhile Char.isWhitespace).reverse.dropWhile Char.isWhitespace).reverse⟩

/-- Mongoose `document.save()` for the Tweet schema: apply the `trim`
setter to `content`, then validate `required` (non-empty string) and
`maxlength: 280`; on success append the document to the collection. -/
def saveTweet (t : Tweet) (db : TweetStore) : Except ApiError TweetStore :=
  let t' : Tweet := { t with content := strTrim t.content }
  if t'.content = "" then .error .serverError
  else if 280 < t'.content.length then .error .serverError
  else .ok (db ++ [t'])

/-- POST /api/tweets (create a tweet).  `content` is the body field with
`undefined` collapsed to `""` (the handler itself stores `content || ''`);
`hasImage` says whether a file was attached, `imageUrl` is the Media
Store URL for it.  The handler rejects when neither content nor file is
present, checks the reply parent when `replyTo` is given, then saves;
a mongoose ValidationError thrown by `save()` lands in the `catch`
block and becomes the 500 response with no document stored. -/
def createTweet (actor : UserId) (content : String) (hasImage : Bool) (imageUrl : String)
    (replyTo? : Option TweetId) (newId : TweetId) (now : Nat) (db : TweetStore) :
    TweetStore × Except ApiError Tweet :=
  if content = "" ∧ ¬hasImage then
    (db, .error (.badRequest "Tweet content is required"))
  else
    let checkParent : Except ApiError Unit :=
      match replyTo? with
      | none => .ok ()
      | some p =>
        match findTweet db p with
        | none => .error (.notFound "Tweet to reply to not found")
        | some _ => .ok ()
    match checkParent with
    | .error e => (db, .error e)
    | .ok () =>
      let t : Tweet :=
        { id := newId, user := actor, content := content,
          image := if hasImage then imageUrl else "",
          likes := [], retweets := [], retweetData := none,
          replyTo := replyTo?, pinned := false, createdAt := now }
      match saveTweet t db with
      | .error e => (db, .error e)
      | .ok db' => (db', .ok { t with content := strTrim t.content })

/-- DELETE /api/tweets/:id: 404 when absent, 401 when the actor is not
the author; otherwise `tweet.deleteOne()` removes the document and
`Tweet.deleteMany({replyTo: id})` removes every direct reply. -/
def deleteTweet (actor : UserId) (postId : TweetId) (db : TweetStore) :
    TweetStore × Except ApiError String :=
  match findTweet db postId with
  | none => (db, .error (.notFound "Tweet not found"))
  | some t =>
    if t.user ≠ actor then (db, .error (.unauthorized "User not authorized"))
    else
      (db.filter (fun x => x.id ≠ postId ∧ x.replyTo ≠ some postId),
       .ok "Tweet deleted")

/-- POST /api/tweets/:id/like: toggle membership of the actor in
`likes` via `$pull` / `$addToSet`. -/
def likeToggle (actor : UserId) (postId : TweetId) (db : TweetStore) :
    TweetStore × Except ApiError String :=
  match findTweet db postId with
  | none => (db, .error (.notFound "Tweet not found"))
  | some t =>
    if actor ∈ t.likes then
      (updateTweet db postId (fun x => { x with likes := pull actor x.likes }),
       .ok "Tweet unliked")
    else
      (updateTweet db postId (fun x => { x with likes := addToSet actor x.likes }),
       .ok "Tweet liked")

/-- Deletion `Tweet.deleteOne` with filter user and retweetData: remove the first document
matching the retweet-wrapper filter. -/
def deleteOneWrapper (actor : UserId) (postId : TweetId) : TweetStore → TweetStore
  | [] => []
  | t :: ts =>
    if t.user = actor ∧ t.retweetData = some postId then ts
    else t :: deleteOneWrapper actor postId ts

/-- POST /api/tweets/:id/retweet.  Unretweet: `$pull` the actor from
`retweets`, then delete the wrapper document.  Retweet: `$addToSet` the
actor into `retweets` (this `findByIdAndUpdate` runs no validators and
persists), then `new Tweet({user, retweetData}).save()` — the wrapper
has no `content`, so the schema's `required` validator rejects it, the
handler's `catch` answers 500, and the membership update is left in
place. -/
def repostToggle (actor : UserId) (postId : TweetId) (newId : TweetId) (now : Nat)
    (db : TweetStore) : TweetStore × Except ApiError String :=
  match findTweet db postId with
  | none => (db, .error (.notFound "Tweet not found"))
  | some t =>
    if actor ∈ t.retweets then
      let db1 := updateTweet db postId (fun x => { x with retweets := pull actor x.retweets })
      (deleteOneWrapper actor postId db1, .ok "Tweet unretweeted")
    else
      let db1 := updateTweet db postId (fun x => { x with retweets := addToSet actor x.retweets })
      let wrapper : Tweet :=
        { id := newId, user := actor, content := "", image := "",
          likes := [], retweets := [], retweetData := some postId,
          replyTo := none, pinned := false, createdAt := now }
      match saveTweet wrapper db1 with
      | .error _ => (db1, .error .serverError)
      | .ok db2 => (db2, .ok "Tweet retweeted")

/-- The repost-wrapper documents of user `u` for original `p`:
documents matching `(user = u, retweetData = p)`. -/
def wrappersOf (u : UserId) (p : TweetId) (db : TweetStore) : List Tweet :=
  db.filter (fun t => t.user = u ∧ t.retweetData = some p)

/-- A document of the `User` collection: the fields the verified routes
touch (id, unique username, and the embedded follow-edge arrays). -/
structure UserRec where
  id : UserId
  username : String
  following : List UserId
  followers : List UserId
  deriving Repr, DecidableEq

abbrev UserDb := List UserRec

/-- Lookup `User.findById`. -/
def findUser (db : UserDb) (id : UserId) : Option UserRec :=
  db.find? (fun u => u.id = id)

/-- Lookup `User.findOne` by username. -/
def findUserByName (db : UserDb) (name : String) : Option UserRec :=
  db.find? (fun u => u.username = name)

/-- Update `User.findByIdAndUpdate`: apply the update to the document with the
given id; edge-set updates preserve `id` and `username`. -/
def updateUser (db : UserDb) (id : UserId) (f : UserRec → UserRec) : UserDb :=
  db.map (fun u => if u.id = id then f u else u)

/-- POST /api/users/:id/follow.  Order of the handler: self-follow
check (400), target lookup (404), then read `currentUser.following` to
pick the direction and update both edge arrays; a missing current user
would make `currentUser.following` throw into the `catch` (500). -/
def followToggle (actor target : UserId) (db : UserDb) :
    UserDb × Except ApiError String :=
  if target = actor then
    (db, .error (.badRequest "You cannot follow yourself"))
  else
    match findUser db target with
    | none => (db, .error (.notFound "User not found"))
    | some _ =>
      match findUser db actor with
      | none => (db, .error .serverError)
      | some cu =>
        if target ∈ cu.following then
          let db1 := updateUser db actor (fun u => { u with following := pull target u.following })
          let db2 := updateUser db1 target (fun u => { u with followers := pull actor u.followers })
          (db2, .ok "User unfollowed")
        else
          let db1 := updateUser db actor (fun u => { u with following := addToSet target u.following })
          let db2 := updateUser db1 target (fun u => { u with followers := addToSet actor u.followers })
          (db2, .ok "User followed")

/-- A sequence of follow-toggle requests `(actor, target)` applied to
the user store, each request keeping only the store it produces. -/
def applyFollowOps (ops : List (UserId × UserId)) (db : UserDb) : UserDb :=
  match ops with
  | [] => db
  | (a, t) :: rest => applyFollowOps rest (followToggle a t db).1

/-- Insert into a list kept in descending `createdAt` order. -/
def insertDesc (t : Tweet) : List Tweet → List Tweet
  | [] => [t]
  | u :: us =>
    if t.createdAt ≤ u.createdAt then u :: insertDesc t us
    else t :: u :: us

/-- Sorting `.sort` on createdAt descending: newest first. -/
def sortDesc (l : List Tweet) : List Tweet :=
  l.foldr insertDesc []

/-- ASCII lower-casing, as the `i` regex option compares letters. -/
def charLower (c : Char) : Char :=
  if 'A' ≤ c ∧ c ≤ 'Z' then Char.ofNat (c.toNat + 32) else c

/-- The fragment of the regex language the search query can reach in
this model: a literal character or the `.` wildcard.  (The store treats
the query string as a regular expression; this model parses only
queries made of plain characters and dots, which covers every query we
reason about.) -/
inductive RegexTok where
  | lit (c : Char)
  | dot
  deriving Repr, DecidableEq

/-- Parse the query string as a regex: `.` is the wildcard, anything
else a literal.  Faithful to `$regex` exactly when the query contains
no other regex metacharacter. -/
def parseQuery (q : String) : List RegexTok :=
  q.data.map (fun c => if c = '.' then .dot else .lit c)

/-- One token against one character, under the case-insensitive `i`
option; the wildcard does not match line terminators. -/
def matchTok : RegexTok → Char → Bool
  | .lit c, d => charLower c = charLower d
  | .dot, d => d ≠ '\n' ∧ d ≠ '\r'

/-- Match the token sequence against a prefix of the text. -/
def matchesAt : List RegexTok → List Char → Bool
  | [], _ => true
  | _ :: _, [] => false
  | t :: ts, c :: cs => matchTok t c && matchesAt ts cs

/-- Unanchored regex search: match at some position of the text. -/
def regexFind (ts : List RegexTok) : List Char → Bool
  | [] => matchesAt ts []
  | c :: cs => matchesAt ts (c :: cs) || regexFind ts cs

/-- The regex filter on content with the case-insensitive option. -/
def contentMatches (q : String) (t : Tweet) : Bool :=
  regexFind (parseQuery q) t.content.data

/-- GET /api/search/tweets, the query part: reject an empty query
(falsy `req.query.q`), else find non-reply tweets whose content matches
the query as a case-insensitive regex, newest first, limit 20. -/
def searchTweets (q : String) (db : TweetStore) : Except ApiError (List Tweet) :=
  if q = "" then .error (.badRequest "Search query is required")
  else
    .ok ((sortDesc (db.filter (fun t => contentMatches q t ∧ t.replyTo = none))).take 20)

/-- GET /api/tweets, the query part: eligible authors are the viewer's
`following` array with the viewer's own id pushed onto it; non-reply
tweets by those authors, newest first, `skip((page-1)*limit)`,
`limit(limit)`.  `page` and `limit` model `parseInt(...) || default`:
an absent or zero parameter falls to the default. -/
def timelineQuery (viewer : UserRec) (page? limit? : Option Nat) (db : TweetStore) :
    List Tweet :=
  let page := match page? with | none => 1 | some 0 => 1 | some n => n
  let limit := match limit? with | none => 10 | some 0 => 10 | some n => n
  let authors := viewer.following ++ [viewer.id]
  (((sortDesc (db.filter (fun t => t.user ∈ authors ∧ t.replyTo = none))).drop
      ((page - 1) * limit)).take limit)

/-- A tweet as returned to the viewer, with the per-read annotations. -/
structure TweetView where
  tweet : Tweet
  isLiked : Bool
  isRetweeted : Bool
  deriving Repr, DecidableEq

/-- Annotate with the membership tests against a known viewer id. -/
def annotateFor (viewerId : UserId) (t : Tweet) : TweetView :=
  { tweet := t, isLiked := viewerId ∈ t.likes, isRetweeted := viewerId ∈ t.retweets }

/-- GET /api/tweets (timeline): the query, annotated against
`req.user.id` (the authenticated viewer). -/
def getTimeline (viewer : UserRec) (page? limit? : Option Nat) (db : TweetStore) :
    List TweetView :=
  (timelineQuery viewer page? limit? db).map (annotateFor viewer.id)

/-- The Principal Resolver on a read path: `jwt.verify` of the bearer
token maps a valid credential to the user id it encodes and throws on a
malformed or expired one; `none` is a throw. -/
abbrev Cred := String

/-- GET /api/tweets/:id.  The handler body references `jwt` but the
module never requires `jsonwebtoken`, so when an Authorization header
is present the inner try-block throws `ReferenceError: jwt is not
defined` before any membership test; the inner catch swallows it and
the annotations stay `false` — for every header, valid or not. -/
def getTweetById (resolve : Cred → Option UserId) (authHeader : Option Cred)
    (postId : TweetId) (db : TweetStore) : Except ApiError TweetView :=
  match findTweet db postId with
  | none => .error (.notFound "Tweet not found")
  | some t =>
    match authHeader with
    | none => .ok { tweet := t, isLiked := false, isRetweeted := false }
    | some _ => .ok { tweet := t, isLiked := false, isRetweeted := false }

/-- GET /api/search/tweets, annotation part.  This module does require
`jsonwebtoken`, so a resolvable credential yields membership-test
annotations and a failing `jwt.verify` falls back to the bare tweets
(all annotations false). -/
def searchTweetsAnnotated (resolve : Cred → Option UserId) (authHeader : Option Cred)
    (q : String) (db : TweetStore) : Except ApiError (List TweetView) :=
  match searchTweets q db with
  | .error e => .error e
  | .ok ts =>
    match authHeader with
    | none => .ok (ts.map (fun t => { tweet := t, isLiked := false, isRetweeted := false }))
    | some cred =>
      match resolve cred with
      | none => .ok (ts.map (fun t => { tweet := t, isLiked := false, isRetweeted := false }))
      | some v => .ok (ts.map (annotateFor v))

/-- The profile view of GET /api/users/:username: the user, the
non-reply tweet count, and `isFollowing`. -/
structure ProfileView where
  user : UserRec
  tweets : Nat
  isFollowing : Bool
  deriving Repr, DecidableEq

/-- GET /api/users/:username.  Like the single-tweet route, this module
uses `jwt` without requiring it: the `isFollowing` computation throws
`ReferenceError` inside the inner try for every present header, the
catch swallows it, and `isFollowing` is `false` for every viewer. -/
def getProfile (resolve : Cred → Option UserId) (authHeader : Option Cred)
    (username : String) (users : UserDb) (db : TweetStore) : Except ApiError ProfileView :=
  match findUserByName users username with
  | none => .error (.notFound "User not found")
  | some u =>
    let cnt := (db.filter (fun t => t.user = u.id ∧ t.replyTo = none)).length
    match authHeader with
    | none => .ok { user := u, tweets := cnt, isFollowing := false }
    | some _ => .ok { user := u, tweets := cnt, isFollowing := false }

/-- GET /api/tweets/:id/comments: the direct replies, newest first;
annotation suffers the same missing-`jwt` throw as the single-tweet
route, so the bare comments are returned for every header. -/
def getComments (resolve : Cred → Option UserId) (authHeader : Option Cred)
    (postId : TweetId) (db : TweetStore) : List TweetView :=
  let comments := sortDesc (db.filter (fun t => t.replyTo = some postId))
  comments.map (fun t => { tweet := t, isLiked := false, isRetweeted := false })

/-- Whether `q` is a case-insensitive prefix of `s`. -/
def prefixCI : List Char → List Char → Bool
  | [], _ => true
  | _ :: _, [] => false
  | c :: cs, d :: ds => (charLower c = charLower d) && prefixCI cs ds

/-- Case-insensitive substring containment — `q` occurs at some
position of `s` — the spec's description of the search filter
("case-insensitive substring match over post content"); written for
comparison with `contentMatches`. -/
def substrCI (q s : List Char) : Bool :=
  prefixCI q s ||
    match s with
    | [] => false
    | _ :: cs => substrCI q cs

/-- The regex metacharacters of the ECMAScript/PCRE language `$regex`
accepts; a query avoiding all of them is matched literally. -/
def isPlainChar (c : Char) : Bool :=
  c ∉ ['.', '^', '$', '*', '+', '?', '(', ')', '[', ']', '{', '}', '|', '\\']

/-- Membership view of observed follow edges: the `following` array of
the user a lookup resolves, empty when the lookup fails. -/
def followingOf (db : UserDb) (x : UserId) : List UserId :=
  match findUser db x with
  | none => []
  | some u => u.following

/-- Membership view of the `followers` array, as `followingOf`. -/
def followersOf (db : UserDb) (x : UserId) : List UserId :=
  match findUser db x with
  | none => []
  | some u => u.followers

/-- The shape both branches of the follow toggle share: update the
actor's `following` array, then the target's `followers` array. -/
def edgeUpdate (db : UserDb) (a t : UserId) (f g : List UserId → List UserId) : UserDb :=
  updateUser (updateUser db a (fun u => { u with following := f u.following })) t
    (fun u => { u with followers := g u.followers })

/-- The follow-graph invariant of §3 of the spec, over the stored
documents: unique ids (a MongoDB `_id` guarantee), symmetry of the two
edge arrays, and no self-edges. -/
def FollowGraphInv (db : UserDb) : Prop :=
  (db.map (fun u => u.id)).Nodup ∧
  (∀ u ∈ db, ∀ v ∈ db, (v.id ∈ u.following ↔ u.id ∈ v.followers)) ∧
  (∀ u ∈ db, u.id ∉ u.following ∧ u.id ∉ u.followers)

/-- Duplicate-freeness of the per-tweet membership arrays. -/
def TweetSetsNodup (db : TweetStore) : Prop :=
  ∀ t ∈ db, t.likes.Nodup ∧ t.retweets.Nodup

/-- Duplicate-freeness of the per-user edge arrays. -/
def UserSetsNodup (db : UserDb) : Prop :=
  ∀ u ∈ db, u.following.Nodup ∧ u.followers.Nodup

/-- Newest first: descending `createdAt` along the list. -/
def DescSorted (l : List Tweet) : Prop :=
  List.Pairwise (fun a b => b.createdAt ≤ a.createdAt) l

/-- A tweet with every field at its neutral value; sample documents are
built from it. -/
def tweet0 : Tweet :=
  { id := 0, user := 0, content := "", image := "", likes := [],
    retweets := [], retweetData := none, replyTo := none,
    pinned := false, createdAt := 0 }

/-- Sample original post (author 2, liked by 7) for concrete runs. -/
def sampleOrig : Tweet :=
  { tweet0 with id := 1, user := 2, content := "hi", likes := [7] }

/-- Sample world for the deletion cascade: post 1 by user 5, direct
replies 2 and 6, a reply-to-a-reply 3, a repost wrapper 4 of post 1,
and an unrelated post 7. -/
def samplePost : Tweet := { tweet0 with id := 1, user := 5, content := "root" }

def sampleReply : Tweet :=
  { tweet0 with id := 2, user := 6, content := "re", replyTo := some 1 }

def sampleReply2 : Tweet :=
  { tweet0 with id := 6, user := 5, content := "re2", replyTo := some 1 }

def sampleGrandReply : Tweet :=
  { tweet0 with id := 3, user := 5, content := "rere", replyTo := some 2 }

def sampleWrapper : Tweet :=
  { tweet0 with id := 4, user := 6, content := "w", retweetData := some 1 }

def sampleOther : Tweet := { tweet0 with id := 7, user := 9, content := "misc" }

def sampleStore : TweetStore :=
  [samplePost, sampleReply, sampleReply2, sampleGrandReply, sampleWrapper, sampleOther]

/-- Sample Principal Resolver: `"tok7"` is the one valid credential and
names user 7; everything else is malformed. -/
def sampleResolve : Cred → Option UserId :=
  fun c => if c = "tok7" then some 7 else none

/-- Sample users: 0 and 1 follow each other; 2 and 7 are isolated,
except that 7 follows 2. -/
def sampleUsers : UserDb :=
  [{ id := 0, username := "ann", following := [1], followers := [1] },
   { id := 1, username := "bob", following := [0], followers := [0] },
   { id := 2, username := "cat", following := [], followers := [7] },
   { id := 7, username := "dan", following := [2], followers := [] }]

theorem mem_addToSet {x y : α} [DecidableEq α] {l : List α} :
    y ∈ addToSet x l ↔ y = x ∨ y ∈ l := by
  unfold addToSet
  by_cases h : x ∈ l
  · simp only [if_pos h]
    constructor
    · exact Or.inr
    · rintro (rfl | hy)
      · exact h
      · exact hy
  · simp [if_neg h, List.mem_append, or_comm]

theorem mem_pull {x y : α} [DecidableEq α] {l : List α} :
    y ∈ pull x l ↔ y ∈ l ∧ y ≠ x := by
  simp [pull, List.mem_filter]

theorem pull_append {x : α} [DecidableEq α] (l1 l2 : List α) :
    pull x (l1 ++ l2) = pull x l1 ++ pull x l2 :=
  List.filter_append l1 l2

theorem pull_eq_self {x : α} [DecidableEq α] {l : List α} (h : x ∉ l) :
    pull x l = l := by
  apply List.filter_eq_self.mpr
  intro a ha
  simp only [ne_eq, decide_eq_true_eq]
  exact fun hax => h (hax ▸ ha)

theorem pull_addToSet_not_mem {x : α} [DecidableEq α] {l : List α} (h : x ∉ l) :
    pull x (addToSet x l) = l := by
  unfold addToSet
  rw [if_neg h, pull_append, pull_eq_self h]
  simp [pull]

theorem nodup_addToSet {x : α} [DecidableEq α] {l : List α} (h : l.Nodup) :
    (addToSet x l).Nodup := by
  unfold addToSet
  by_cases hx : x ∈ l
  · simpa [if_pos hx]
  · simpa [if_neg hx, List.nodup_append] using ⟨h, fun hmem => hx hmem⟩

theorem nodup_pull {x : α} [DecidableEq α] {l : List α} (h : l.Nodup) :
    (pull x l).Nodup :=
  List.Nodup.filter _ h

theorem mem_addToSet_pull {x y : α} [DecidableEq α] {l : List α} (h : x ∈ l) :
    y ∈ addToSet x (pull x l) ↔ y ∈ l := by
  rw [mem_addToSet, mem_pull]
  constructor
  · rintro (rfl | ⟨hy, _⟩)
    · exact h
    · exact hy
  · intro hy
    by_cases hyx : y = x
    · exact Or.inl hyx
    · exact Or.inr ⟨hy, hyx⟩

theorem findUser_some_id {db : UserDb} {x : UserId} {u : UserRec}
    (h : findUser db x = some u) : u.id = x := by
  have := List.find?_some h
  simpa using this

theorem findUser_some_mem {db : UserDb} {x : UserId} {u : UserRec}
    (h : findUser db x = some u) : u ∈ db :=
  List.mem_of_find?_eq_some h

theorem findUser_of_mem (db : UserDb) (u : UserRec)
    (hnd : (db.map (fun x => x.id)).Nodup) (hu : u ∈ db) :
    findUser db u.id = some u := by
  induction db with
  | nil => cases hu
  | cons v vs ih =>
    rcases List.mem_cons.mp hu with rfl | hu'
    · unfold findUser
      rw [List.find?_cons_of_pos _ (by simp)]
    · have hne : v.id ≠ u.id := by
        intro hEq
        have hmem : u.id ∈ List.map (fun x => x.id) vs :=
          List.mem_map_of_mem (fun x => x.id) hu'
        exact (List.nodup_cons.mp hnd).1 (by simpa [hEq] using hmem)
      unfold findUser
      rw [List.find?_cons_of_neg _ (by simp [hne])]
      exact ih (List.nodup_cons.mp hnd).2 hu'

theorem findUser_update (db : UserDb) (i j : UserId) (f : UserRec → UserRec)
    (hf : ∀ u, (f u).id = u.id) :
    findUser (updateUser db i f) j =
      (findUser db j).map (fun u => if u.id = i then f u else u) := by
  induction db with
  | nil => rfl
  | cons v vs ih =>
    have hvid : (if v.id = i then f v else v).id = v.id := by
      by_cases hvi : v.id = i <;> simp [hvi, hf]
    have hcons : updateUser (v :: vs) i f =
        (if v.id = i then f v else v) :: updateUser vs i f := rfl
    by_cases hv : v.id = j
    · unfold findUser
      rw [hcons, List.find?_cons_of_pos _ (by rw [hvid]; simp [hv]),
        List.find?_cons_of_pos _ (by simp [hv])]
      rfl
    · unfold findUser
      rw [hcons, List.find?_cons_of_neg _ (by simp [hvid, hv]),
        List.find?_cons_of_neg _ (by simp [hv])]
      exact ih

theorem updateUser_map_id (db : UserDb) (i : UserId) (f : UserRec → UserRec)
    (hf : ∀ u, (f u).id = u.id) :
    (updateUser db i f).map (fun x => x.id) = db.map (fun x => x.id) := by
  unfold updateUser
  rw [List.map_map]
  apply List.map_congr_left
  intro u _
  by_cases hvi : u.id = i <;> simp [hvi, hf]

theorem mem_updateUser {db : UserDb} {i : UserId} {f : UserRec → UserRec} {u' : UserRec} :
    u' ∈ updateUser db i f ↔ ∃ u ∈ db, u' = if u.id = i then f u else u := by
  unfold updateUser
  simp only [List.mem_map]
  constructor
  · rintro ⟨u, hu, rfl⟩
    exact ⟨u, hu, rfl⟩
  · rintro ⟨u, hu, rfl⟩
    exact ⟨u, hu, rfl⟩

/-- C9: `followToggle(A, A)` always fails with the invalid-operation
response (400, "You cannot follow yourself") and returns the user store
unchanged, whatever the store holds. -/
theorem followToggle_self_rejected (A : UserId) (db : UserDb) :
    followToggle A A db = (db, .error (.badRequest "You cannot follow yourself")) := by
  simp [followToggle]

/-- C4: when the post exists and the actor is its author, deletion
answers "Tweet deleted" and the remaining store holds exactly the
documents that are neither the post nor a direct reply to it; in
particular repost wrappers referencing the post and replies to its
replies survive, since their `id` differs and their `replyTo` does not
point at the deleted post. -/
theorem deleteTweet_cascade (actor : UserId) (postId : TweetId) (db : TweetStore) (P : Tweet)
    (hP : findTweet db postId = some P) (hauth : P.user = actor) :
    (deleteTweet actor postId db).2 = .ok "Tweet deleted" ∧
    ∀ x : Tweet, x ∈ (deleteTweet actor postId db).1 ↔
      x ∈ db ∧ x.id ≠ postId ∧ x.replyTo ≠ some postId := by
  unfold deleteTweet
  rw [hP]
  simp [hauth, List.mem_filter, and_assoc]

/-- C4 witness: deleting post 1 (author 5) from the sample store: the
repost wrapper of post 1 stays because it is neither post 1 nor a
direct reply to it. -/
theorem deleteTweet_cascade_witness :
    (findTweet sampleStore 1 = some samplePost ∧ samplePost.user = 5) ∧
    (sampleWrapper ∈ (deleteTweet 5 1 sampleStore).1 ↔
      sampleWrapper ∈ sampleStore ∧ sampleWrapper.id ≠ 1 ∧ sampleWrapper.replyTo ≠ some 1) :=
  ⟨⟨rfl, rfl⟩, (deleteTweet_cascade 5 1 sampleStore samplePost rfl rfl).2 sampleWrapper⟩

/-- C1 (the adding direction, run on the code): user 7 reposts post 1.
The membership toggle persists (`7 ∈ repostedBy`), but the wrapper
document fails the schema's required-content validation, so zero posts
with `(authorId = 7, repostOf = 1)` exist afterwards and the request
answers 500 — not the one empty-content wrapper the claim promises. -/
theorem repostToggle_add_no_wrapper :
    (repostToggle 7 1 99 5 [sampleOrig]).2 = .error .serverError ∧
    findTweet (repostToggle 7 1 99 5 [sampleOrig]).1 1 =
      some { sampleOrig with retweets := [7] } ∧
    wrappersOf 7 1 (repostToggle 7 1 99 5 [sampleOrig]).1 = [] :=
  ⟨rfl, rfl, rfl⟩

/-- C6 (run on the code): a create with an attached image and empty
content is answered 500 — the schema's `required: true` on `content`
rejects the empty string that the handler stores — with no document
saved; a create with neither content nor image is answered 400 before
any state change (this part of the claim holds). -/
theorem createTweet_imageOnly_rejected :
    createTweet 2 "" true "http://img" none 10 0 [] = ([], .error .serverError) ∧
    createTweet 2 "" false "" none 10 0 [] =
      ([], .error (.badRequest "Tweet content is required")) :=
  ⟨rfl, rfl⟩

theorem followToggle_shape (a t : UserId) (db : UserDb) (uA uB : UserRec)
    (hat : a ≠ t) (hA : findUser db a = some uA) (hB : findUser db t = some uB) :
    followToggle a t db =
      if t ∈ uA.following then
        (edgeUpdate db a t (pull t) (pull a), .ok "User unfollowed")
      else
        (edgeUpdate db a t (addToSet t) (addToSet a), .ok "User followed") := by
  unfold followToggle edgeUpdate
  rw [if_neg (Ne.symm hat), hB, hA]

theorem findUser_edgeUpdate (db : UserDb) (a t x : UserId)
    (f g : List UserId → List UserId) :
    findUser (edgeUpdate db a t f g) x =
      (findUser db x).map (fun u =>
        { u with following := if u.id = a then f u.following else u.following,
                 followers := if u.id = t then g u.followers else u.followers }) := by
  unfold edgeUpdate
  rw [findUser_update (updateUser db a (fun u => { u with following := f u.following })) t x
        (fun u => { u with followers := g u.followers }) (fun u => rfl),
      findUser_update db a x (fun u => { u with following := f u.following }) (fun u => rfl)]
  cases hx : findUser db x with
  | none => rfl
  | some u =>
    simp only [Option.map_some']
    congr 1
    by_cases h1 : u.id = a <;> by_cases h2 : u.id = t <;>
      simp [h1, h2] <;> split_ifs <;> simp_all

theorem followingOf_edgeUpdate (db : UserDb) (a t x : UserId)
    (f g : List UserId → List UserId) :
    followingOf (edgeUpdate db a t f g) x =
      match findUser db x with
      | none => []
      | some u => if u.id = a then f u.following else u.following := by
  unfold followingOf
  rw [findUser_edgeUpdate]
  cases findUser db x with
  | none => rfl
  | some u => simp only [Option.map_some']

theorem followersOf_edgeUpdate (db : UserDb) (a t x : UserId)
    (f g : List UserId → List UserId) :
    followersOf (edgeUpdate db a t f g) x =
      match findUser db x with
      | none => []
      | some u => if u.id = t then g u.followers else u.followers := by
  unfold followersOf
  rw [findUser_edgeUpdate]
  cases findUser db x with
  | none => rfl
  | some u => simp only [Option.map_some']

theorem followingOf_eq_of_find {db : UserDb} {x : UserId} {u : UserRec}
    (hx : findUser db x = some u) : followingOf db x = u.following := by
  unfold followingOf
  rw [hx]

theorem followersOf_eq_of_find {db : UserDb} {x : UserId} {u : UserRec}
    (hx : findUser db x = some u) : followersOf db x = u.followers := by
  unfold followersOf
  rw [hx]

theorem followingOf_eq_nil {db : UserDb} {x : UserId}
    (hx : findUser db x = none) : followingOf db x = [] := by
  unfold followingOf
  rw [hx]

theorem followersOf_eq_nil {db : UserDb} {x : UserId}
    (hx : findUser db x = none) : followersOf db x = [] := by
  unfold followersOf
  rw [hx]

theorem findUser_edgeUpdate_none {db : UserDb} {x : UserId} (a t : UserId)
    (f g : List UserId → List UserId) (hx : findUser db x = none) :
    findUser (edgeUpdate db a t f g) x = none := by
  rw [findUser_edgeUpdate, hx]
  rfl

theorem findUser_edgeUpdate_some {db : UserDb} {x : UserId} {u : UserRec} (a t : UserId)
    (f g : List UserId → List UserId) (hx : findUser db x = some u) :
    findUser (edgeUpdate db a t f g) x =
      some { u with following := if u.id = a then f u.following else u.following,
                    followers := if u.id = t then g u.followers else u.followers } := by
  rw [findUser_edgeUpdate, hx]
  rfl

/-- C2: for users A ≠ B both present in the store, with the A–B edge
symmetric between them (which the §3 invariant guarantees for every
reachable state), running the follow toggle twice restores every user's
`following` and `followers` sets: membership is exactly what it was
before either call. -/
theorem followToggle_twice_restores (A B : UserId) (db : UserDb) (uA uB : UserRec)
    (hAB : A ≠ B) (hA : findUser db A = some uA) (hB : findUser db B = some uB)
    (hsym : B ∈ uA.following ↔ A ∈ uB.followers) :
    ∀ x y : UserId,
      (y ∈ followingOf (followToggle A B (followToggle A B db).1).1 x ↔
        y ∈ followingOf db x) ∧
      (y ∈ followersOf (followToggle A B (followToggle A B db).1).1 x ↔
        y ∈ followersOf db x) := by
  have hidA : uA.id = A := findUser_some_id hA
  have hidB : uB.id = B := findUser_some_id hB
  by_cases hmem : B ∈ uA.following
  case pos =>
    have h1 : (followToggle A B db).1 = edgeUpdate db A B (pull B) (pull A) := by
      rw [followToggle_shape A B db uA uB hAB hA hB, if_pos hmem]
    have hA1 : findUser (edgeUpdate db A B (pull B) (pull A)) A =
        some { uA with following := pull B uA.following, followers := uA.followers } := by
      rw [findUser_edgeUpdate_some A B (pull B) (pull A) hA,
        if_pos hidA, if_neg (show uA.id ≠ B by rw [hidA]; exact hAB)]
    have hB1 : findUser (edgeUpdate db A B (pull B) (pull A)) B =
        some { uB with following := uB.following, followers := pull A uB.followers } := by
      rw [findUser_edgeUpdate_some A B (pull B) (pull A) hB,
        if_neg (show uB.id ≠ A by rw [hidB]; exact Ne.symm hAB), if_pos hidB]
    have hnotin : B ∉ pull B uA.following := by simp [mem_pull]
    have h2 : (followToggle A B (edgeUpdate db A B (pull B) (pull A))).1 =
        edgeUpdate (edgeUpdate db A B (pull B) (pull A)) A B (addToSet B) (addToSet A) := by
      rw [followToggle_shape A B _ _ _ hAB hA1 hB1, if_neg hnotin]
    intro x y
    rw [h1, h2]
    cases hx : findUser db x with
    | none =>
      have hx1 := findUser_edgeUpdate_none A B (pull B) (pull A) hx
      have hx2 := findUser_edgeUpdate_none A B (addToSet B) (addToSet A) hx1
      rw [followingOf_eq_nil hx, followingOf_eq_nil hx2,
        followersOf_eq_nil hx, followersOf_eq_nil hx2]
      exact ⟨Iff.rfl, Iff.rfl⟩
    | some u =>
      have hux : u.id = x := findUser_some_id hx
      have hx1 := findUser_edgeUpdate_some A B (pull B) (pull A) hx
      have hx2 := findUser_edgeUpdate_some A B (addToSet B) (addToSet A) hx1
      rw [followingOf_eq_of_find hx2, followingOf_eq_of_find hx,
        followersOf_eq_of_find hx2, followersOf_eq_of_find hx]
      constructor
      · by_cases hxa : u.id = A
        · have huA : u = uA := by
            rw [← hxa, hux] at hA
            rw [hx] at hA
            exact (Option.some.injEq _ _).mp hA
          subst huA
          simp only [hxa, eq_self_iff_true, if_true]
          exact mem_addToSet_pull hmem
        · simp [hxa]
      · by_cases hxb : u.id = B
        · have huB : u = uB := by
            rw [← hxb, hux] at hB
            rw [hx] at hB
            exact (Option.some.injEq _ _).mp hB
          subst huB
          simp only [hxb, eq_self_iff_true, if_true]
          exact mem_addToSet_pull (hsym.mp hmem)
        · simp [hxb]
  case neg =>
    have hmemW : A ∉ uB.followers := fun hAf => hmem (hsym.mpr hAf)
    have h1 : (followToggle A B db).1 = edgeUpdate db A B (addToSet B) (addToSet A) := by
      rw [followToggle_shape A B db uA uB hAB hA hB, if_neg hmem]
    have hA1 : findUser (edgeUpdate db A B (addToSet B) (addToSet A)) A =
        some { uA with following := addToSet B uA.following, followers := uA.followers } := by
      rw [findUser_edgeUpdate_some A B (addToSet B) (addToSet A) hA,
        if_pos hidA, if_neg (show uA.id ≠ B by rw [hidA]; exact hAB)]
    have hB1 : findUser (edgeUpdate db A B (addToSet B) (addToSet A)) B =
        some { uB with following := uB.following, followers := addToSet A uB.followers } := by
      rw [findUser_edgeUpdate_some A B (addToSet B) (addToSet A) hB,
        if_neg (show uB.id ≠ A by rw [hidB]; exact Ne.symm hAB), if_pos hidB]
    have hin : B ∈ addToSet B uA.following := mem_addToSet.mpr (Or.inl rfl)
    have h2 : (followToggle A B (edgeUpdate db A B (addToSet B) (addToSet A))).1 =
        edgeUpdate (edgeUpdate db A B (addToSet B) (addToSet A)) A B (pull B) (pull A) := by
      rw [followToggle_shape A B _ _ _ hAB hA1 hB1, if_pos hin]
    intro x y
    rw [h1, h2]
    cases hx : findUser db x with
    | none =>
      have hx1 := findUser_edgeUpdate_none A B (addToSet B) (addToSet A) hx
      have hx2 := findUser_edgeUpdate_none A B (pull B) (pull A) hx1
      rw [followingOf_eq_nil hx, followingOf_eq_nil hx2,
        followersOf_eq_nil hx, followersOf_eq_nil hx2]
      exact ⟨Iff.rfl, Iff.rfl⟩
    | some u =>
      have hux : u.id = x := findUser_some_id hx
      have hx1 := findUser_edgeUpdate_some A B (addToSet B) (addToSet A) hx
      have hx2 := findUser_edgeUpdate_some A B (pull B) (pull A) hx1
      rw [followingOf_eq_of_find hx2, followingOf_eq_of_find hx,
        followersOf_eq_of_find hx2, followersOf_eq_of_find hx]
      constructor
      · by_cases hxa : u.id = A
        · have huA : u = uA := by
            rw [← hxa, hux] at hA
            rw [hx] at hA
            exact (Option.some.injEq _ _).mp hA
          subst huA
          simp only [hxa, eq_self_iff_true, if_true]
          rw [pull_addToSet_not_mem hmem]
        · simp [hxa]
      · by_cases hxb : u.id = B
        · have huB : u = uB := by
            rw [← hxb, hux] at hB
            rw [hx] at hB
            exact (Option.some.injEq _ _).mp hB
          subst huB
          simp only [hxb, eq_self_iff_true, if_true]
          rw [pull_addToSet_not_mem hmemW]
        · simp [hxb]

/-- C2 witness: toggling the 0→1 edge of the sample store twice leaves
user 0 following user 1 exactly as before. -/
theorem followToggle_twice_restores_witness :
    (0 : UserId) ≠ 1 ∧
      ((1 : UserId) ∈ followingOf (followToggle 0 1 (followToggle 0 1 sampleUsers).1).1 0 ↔
        (1 : UserId) ∈ followingOf sampleUsers 0) := by
  constructor
  · decide
  · exact (followToggle_twice_restores 0 1 sampleUsers
      { id := 0, username := "ann", following := [1], followers := [1] }
      { id := 1, username := "bob", following := [0], followers := [0] }
      (by decide) rfl rfl (by decide) 0 1).1

theorem mem_edgeUpdate {db : UserDb} {a t : UserId} {f g : List UserId → List UserId}
    {w : UserRec} :
    w ∈ edgeUpdate db a t f g ↔
      ∃ u ∈ db, w =
        { u with following := if u.id = a then f u.following else u.following,
                 followers := if u.id = t then g u.followers else u.followers } := by
  unfold edgeUpdate
  rw [mem_updateUser]
  constructor
  · rintro ⟨u1, hu1, rfl⟩
    rw [mem_updateUser] at hu1
    obtain ⟨u, hu, rfl⟩ := hu1
    refine ⟨u, hu, ?_⟩
    by_cases h1 : u.id = a <;> by_cases h2 : u.id = t <;>
      simp [h1, h2] <;> split_ifs <;> simp_all
  · rintro ⟨u, hu, rfl⟩
    refine ⟨if u.id = a then { u with following := f u.following } else u,
      mem_updateUser.mpr ⟨u, hu, rfl⟩, ?_⟩
    by_cases h1 : u.id = a <;> by_cases h2 : u.id = t <;>
      simp [h1, h2] <;> split_ifs <;> simp_all

theorem followGraphInv_edgeUpdate (db : UserDb) (a t : UserId) (uA uB : UserRec)
    (hat : a ≠ t) (hA : findUser db a = some uA) (hB : findUser db t = some uB)
    (f g : List UserId → List UserId) (post : Prop)
    (hf : ∀ y, y ∈ f uA.following ↔ (y = t ∧ post) ∨ (y ∈ uA.following ∧ y ≠ t))
    (hg : ∀ y, y ∈ g uB.followers ↔ (y = a ∧ post) ∨ (y ∈ uB.followers ∧ y ≠ a))
    (hInv : FollowGraphInv db) : FollowGraphInv (edgeUpdate db a t f g) := by
  obtain ⟨hnd, hpair, hself⟩ := hInv
  have huniqA : ∀ w ∈ db, w.id = a → w = uA := by
    intro w hw hwa
    have := findUser_of_mem db w hnd hw
    rw [hwa, hA] at this
    exact ((Option.some.injEq _ _).mp this).symm
  have huniqB : ∀ w ∈ db, w.id = t → w = uB := by
    intro w hw hwt
    have := findUser_of_mem db w hnd hw
    rw [hwt, hB] at this
    exact ((Option.some.injEq _ _).mp this).symm
  refine ⟨?_, ?_, ?_⟩
  · unfold edgeUpdate
    rw [updateUser_map_id (updateUser db a (fun u => { u with following := f u.following })) t
        (fun u => { u with followers := g u.followers }) (fun u => rfl),
      updateUser_map_id db a (fun u => { u with following := f u.following }) (fun u => rfl)]
    exact hnd
  · intro u' hu' v' hv'
    obtain ⟨u, hu, rfl⟩ := mem_edgeUpdate.mp hu'
    obtain ⟨v, hv, rfl⟩ := mem_edgeUpdate.mp hv'
    show v.id ∈ (if u.id = a then f u.following else u.following) ↔
      u.id ∈ (if v.id = t then g v.followers else v.followers)
    have hL : v.id ∈ (if u.id = a then f u.following else u.following) ↔
        ((u.id = a ∧ v.id = t) ∧ post) ∨ (¬(u.id = a ∧ v.id = t) ∧ v.id ∈ u.following) := by
      by_cases hua : u.id = a
      · have hueq := huniqA u hu hua
        subst hueq
        rw [if_pos hua, hf]
        by_cases hvt : v.id = t <;> simp [hua, hvt]
      · rw [if_neg hua]
        simp [hua]
    have hR : u.id ∈ (if v.id = t then g v.followers else v.followers) ↔
        ((u.id = a ∧ v.id = t) ∧ post) ∨ (¬(u.id = a ∧ v.id = t) ∧ u.id ∈ v.followers) := by
      by_cases hvt : v.id = t
      · have hveq := huniqB v hv hvt
        subst hveq
        rw [if_pos hvt, hg]
        by_cases hua : u.id = a <;> simp [hua, hvt]
      · rw [if_neg hvt]
        simp [hvt]
    rw [hL, hR]
    by_cases hcond : u.id = a ∧ v.id = t
    · simp [hcond]
    · simp [hcond, hpair u hu v hv]
  · intro u' hu'
    obtain ⟨u, hu, rfl⟩ := mem_edgeUpdate.mp hu'
    show u.id ∉ (if u.id = a then f u.following else u.following) ∧
      u.id ∉ (if u.id = t then g u.followers else u.followers)
    constructor
    · by_cases hua : u.id = a
      · have hueq := huniqA u hu hua
        subst hueq
        rw [if_pos hua, hf]
        rintro (⟨h1, _⟩ | ⟨h1, _⟩)
        · exact hat (hua ▸ h1)
        · exact (hself u hu).1 h1
      · rw [if_neg hua]
        exact (hself u hu).1
    · by_cases hut : u.id = t
      · have hueq := huniqB u hu hut
        subst hueq
        rw [if_pos hut, hg]
        rintro (⟨h1, _⟩ | ⟨h1, _⟩)
        · exact hat (h1 ▸ hut)
        · exact (hself u hu).2 h1
      · rw [if_neg hut]
        exact (hself u hu).2

theorem followGraphInv_followToggle (a t : UserId) (db : UserDb)
    (h : FollowGraphInv db) : FollowGraphInv (followToggle a t db).1 := by
  by_cases hat : t = a
  · simp [followToggle, hat]
    exact h
  · cases hB : findUser db t with
    | none =>
      simp [followToggle, hat, hB]
      exact h
    | some uB =>
      cases hA : findUser db a with
      | none =>
        simp [followToggle, hat, hB, hA]
        exact h
      | some uA =>
        rw [followToggle_shape a t db uA uB (Ne.symm hat) hA hB]
        by_cases hmem : t ∈ uA.following
        · rw [if_pos hmem]
          refine followGraphInv_edgeUpdate db a t uA uB (Ne.symm hat) hA hB _ _ False
            (fun y => ?_) (fun y => ?_) h
          · rw [mem_pull]
            simp
          · rw [mem_pull]
            simp
        · rw [if_neg hmem]
          refine followGraphInv_edgeUpdate db a t uA uB (Ne.symm hat) hA hB _ _ True
            (fun y => ?_) (fun y => ?_) h
          · rw [mem_addToSet]
            by_cases hyt : y = t <;> simp [hyt]
          · rw [mem_addToSet]
            by_cases hya : y = a <;> simp [hya]

/-- C3: the follow-graph invariant — unique ids, `B.id ∈ A.following ⟺
A.id ∈ B.followers` for all stored users A and B, and no user id in its
own edge arrays — is preserved by every sequence of follow-toggle
requests, whatever actors and targets they name. -/
theorem followGraphInv_applyFollowOps (ops : List (UserId × UserId)) (db : UserDb)
    (h : FollowGraphInv db) : FollowGraphInv (applyFollowOps ops db) := by
  induction ops generalizing db with
  | nil => exact h
  | cons op rest ih =>
    obtain ⟨a, t⟩ := op
    exact ih (followToggle a t db).1 (followGraphInv_followToggle a t db h)

/-- C3 witness: the sample users satisfy the invariant, and still do
after a mixed batch of follows, unfollows, self-follow attempts and
toggles against missing users. -/
theorem followGraphInv_applyFollowOps_witness :
    FollowGraphInv sampleUsers ∧
      FollowGraphInv
        (applyFollowOps [(0, 2), (2, 0), (1, 2), (0, 1), (0, 0), (5, 1), (0, 99)] sampleUsers) :=
  ⟨by unfold FollowGraphInv; decide,
   followGraphInv_applyFollowOps _ sampleUsers (by unfold FollowGraphInv; decide)⟩

theorem mem_updateTweet {db : TweetStore} {i : TweetId} {f : Tweet → Tweet} {t' : Tweet} :
    t' ∈ updateTweet db i f ↔ ∃ t ∈ db, t' = if t.id = i then f t else t := by
  unfold updateTweet
  simp only [List.mem_map]
  constructor
  · rintro ⟨t, ht, rfl⟩
    exact ⟨t, ht, rfl⟩
  · rintro ⟨t, ht, rfl⟩
    exact ⟨t, ht, rfl⟩

theorem mem_deleteOneWrapper_sub {a : UserId} {p : TweetId} {db : TweetStore} {x : Tweet}
    (hx : x ∈ deleteOneWrapper a p db) : x ∈ db := by
  induction db with
  | nil => cases hx
  | cons t ts ih =>
    unfold deleteOneWrapper at hx
    by_cases h : t.user = a ∧ t.retweetData = some p
    · rw [if_pos h] at hx
      exact List.mem_cons_of_mem _ hx
    · rw [if_neg h] at hx
      rcases List.mem_cons.mp hx with rfl | hx'
      · exact List.mem_cons_self _ _
      · exact List.mem_cons_of_mem _ (ih hx')

theorem saveTweet_ok_shape {t : Tweet} {db db' : TweetStore} (h : saveTweet t db = .ok db') :
    db' = db ++ [{ t with content := strTrim t.content }] := by
  unfold saveTweet at h
  by_cases h1 : strTrim t.content = ""
  · simp [h1] at h
  · by_cases h2 : 280 < (strTrim t.content).length
    · simp [h1, h2] at h
    · simp [h1, h2] at h
      exact h.symm

theorem likeToggle_none {db : TweetStore} {postId : TweetId} (actor : UserId)
    (hfind : findTweet db postId = none) :
    likeToggle actor postId db = (db, .error (.notFound "Tweet not found")) := by
  unfold likeToggle
  rw [hfind]

theorem likeToggle_shape {db : TweetStore} {postId : TweetId} {t : Tweet} (actor : UserId)
    (hfind : findTweet db postId = some t) :
    likeToggle actor postId db =
      if actor ∈ t.likes then
        (updateTweet db postId (fun x => { x with likes := pull actor x.likes }),
         .ok "Tweet unliked")
      else
        (updateTweet db postId (fun x => { x with likes := addToSet actor x.likes }),
         .ok "Tweet liked") := by
  unfold likeToggle
  rw [hfind]

theorem repostToggle_none {db : TweetStore} {postId : TweetId} (actor : UserId)
    (newId : TweetId) (now : Nat) (hfind : findTweet db postId = none) :
    repostToggle actor postId newId now db = (db, .error (.notFound "Tweet not found")) := by
  unfold repostToggle
  rw [hfind]

theorem repostToggle_shape {db : TweetStore} {postId : TweetId} {t : Tweet} (actor : UserId)
    (newId : TweetId) (now : Nat) (hfind : findTweet db postId = some t) :
    repostToggle actor postId newId now db =
      if actor ∈ t.retweets then
        (deleteOneWrapper actor postId
          (updateTweet db postId (fun x => { x with retweets := pull actor x.retweets })),
         .ok "Tweet unretweeted")
      else
        match saveTweet
            { id := newId, user := actor, content := "", image := "",
              likes := [], retweets := [], retweetData := some postId,
              replyTo := none, pinned := false, createdAt := now }
            (updateTweet db postId (fun x => { x with retweets := addToSet actor x.retweets })) with
        | .error _ =>
          (updateTweet db postId (fun x => { x with retweets := addToSet actor x.retweets }),
           .error .serverError)
        | .ok db2 => (db2, .ok "Tweet retweeted") := by
  unfold repostToggle
  rw [hfind]

/-- C10: the membership arrays are only ever grown by `$addToSet` and
shrunk by `$pull`, so starting from duplicate-free stores the like
toggle and the repost toggle keep every tweet's `likes` and `retweets`
arrays duplicate-free, and the follow toggle keeps every user's
`following` and `followers` arrays duplicate-free. -/
theorem toggles_preserve_nodup (actor target : UserId) (postId newId : TweetId) (now : Nat)
    (tdb : TweetStore) (udb : UserDb)
    (ht : TweetSetsNodup tdb) (hu : UserSetsNodup udb) :
    TweetSetsNodup (likeToggle actor postId tdb).1 ∧
    TweetSetsNodup (repostToggle actor postId newId now tdb).1 ∧
    UserSetsNodup (followToggle actor target udb).1 := by
  have hupdLike : ∀ (op : List UserId → List UserId),
      (∀ l : List UserId, l.Nodup → (op l).Nodup) →
      TweetSetsNodup (updateTweet tdb postId (fun x => { x with likes := op x.likes })) := by
    intro op hop x hx
    obtain ⟨y, hy, rfl⟩ := mem_updateTweet.mp hx
    by_cases hid : y.id = postId
    · rw [if_pos hid]
      exact ⟨hop _ (ht y hy).1, (ht y hy).2⟩
    · rw [if_neg hid]
      exact ht y hy
  have hupdRt : ∀ (op : List UserId → List UserId),
      (∀ l : List UserId, l.Nodup → (op l).Nodup) →
      TweetSetsNodup (updateTweet tdb postId (fun x => { x with retweets := op x.retweets })) := by
    intro op hop x hx
    obtain ⟨y, hy, rfl⟩ := mem_updateTweet.mp hx
    by_cases hid : y.id = postId
    · rw [if_pos hid]
      exact ⟨(ht y hy).1, hop _ (ht y hy).2⟩
    · rw [if_neg hid]
      exact ht y hy
  refine ⟨?_, ?_, ?_⟩
  · cases hfind : findTweet tdb postId with
    | none =>
      rw [likeToggle_none actor hfind]
      exact ht
    | some t =>
      by_cases hmem : actor ∈ t.likes
      · rw [likeToggle_shape actor hfind, if_pos hmem]
        exact hupdLike (pull actor) (fun l hl => nodup_pull hl)
      · rw [likeToggle_shape actor hfind, if_neg hmem]
        exact hupdLike (addToSet actor) (fun l hl => nodup_addToSet hl)
  · cases hfind : findTweet tdb postId with
    | none =>
      rw [repostToggle_none actor newId now hfind]
      exact ht
    | some t =>
      by_cases hmem : actor ∈ t.retweets
      · rw [repostToggle_shape actor newId now hfind, if_pos hmem]
        intro x hx
        exact hupdRt (pull actor) (fun l hl => nodup_pull hl) x (mem_deleteOneWrapper_sub hx)
      · rw [repostToggle_shape actor newId now hfind, if_neg hmem]
        have hdb1 := hupdRt (addToSet actor) (fun l hl => nodup_addToSet hl)
        cases hsave : saveTweet
            { id := newId, user := actor, content := "", image := "",
              likes := [], retweets := [], retweetData := some postId,
              replyTo := none, pinned := false, createdAt := now }
            (updateTweet tdb postId (fun x => { x with retweets := addToSet actor x.retweets })) with
        | error e => exact hdb1
        | ok db2 =>
          intro x hx
          rw [saveTweet_ok_shape hsave] at hx
          rcases List.mem_append.mp hx with hx' | hx'
          · exact hdb1 x hx'
          · rcases List.mem_singleton.mp hx' with rfl
            exact ⟨List.nodup_nil, List.nodup_nil⟩
  · by_cases hat : target = actor
    · simp [followToggle, hat]
      exact hu
    · cases hB : findUser udb target with
      | none =>
        simp [followToggle, hat, hB]
        exact hu
      | some uB =>
        cases hA : findUser udb actor with
        | none =>
          simp [followToggle, hat, hB, hA]
          exact hu
        | some uA =>
          rw [followToggle_shape actor target udb uA uB (Ne.symm hat) hA hB]
          have hEdge : ∀ (f g : List UserId → List UserId),
              (∀ l : List UserId, l.Nodup → (f l).Nodup) →
              (∀ l : List UserId, l.Nodup → (g l).Nodup) →
              UserSetsNodup (edgeUpdate udb actor target f g) := by
            intro f g hfp hgp w hw
            obtain ⟨u, huu, rfl⟩ := mem_edgeUpdate.mp hw
            constructor
            · show (if u.id = actor then f u.following else u.following).Nodup
              by_cases h1 : u.id = actor
              · rw [if_pos h1]
                exact hfp _ (hu u huu).1
              · rw [if_neg h1]
                exact (hu u huu).1
            · show (if u.id = target then g u.followers else u.followers).Nodup
              by_cases h2 : u.id = target
              · rw [if_pos h2]
                exact hgp _ (hu u huu).2
              · rw [if_neg h2]
                exact (hu u huu).2
          by_cases hmem : target ∈ uA.following
          · rw [if_pos hmem]
            exact hEdge (pull target) (pull actor)
              (fun l hl => nodup_pull hl) (fun l hl => nodup_pull hl)
          · rw [if_neg hmem]
            exact hEdge (addToSet target) (addToSet actor)
              (fun l hl => nodup_addToSet hl) (fun l hl => nodup_addToSet hl)

/-- C10 witness: the sample stores are duplicate-free and stay so after
user 7 toggles a like on post 1. -/
theorem toggles_preserve_nodup_witness :
    TweetSetsNodup sampleStore ∧ UserSetsNodup sampleUsers ∧
      TweetSetsNodup (likeToggle 7 1 sampleStore).1 :=
  ⟨by unfold TweetSetsNodup; decide, by unfold UserSetsNodup; decide,
   (toggles_preserve_nodup 7 0 1 99 5 sampleStore sampleUsers
      (by unfold TweetSetsNodup; decide) (by unfold UserSetsNodup; decide)).1⟩

/-- C5 (run on the code): the single-tweet and profile modules use
`jwt` without requiring `jsonwebtoken`, so the inner try-block throws
before any membership test and even a valid resolvable credential gets
the anonymous annotations: user 7's token resolves to 7, 7 has liked
post 1 and follows user 2, yet `isLiked` and `isFollowing` come back
false.  The never-fails half of the claim does hold — a malformed
credential still yields the anonymous 200 — and the search module,
which does require `jsonwebtoken`, computes the membership tests. -/
theorem readPaths_annotations_broken :
    getTweetById sampleResolve (some "tok7") 1 [sampleOrig] =
      .ok { tweet := sampleOrig, isLiked := false, isRetweeted := false } ∧
    sampleResolve "tok7" = some 7 ∧
    (7 : UserId) ∈ sampleOrig.likes ∧
    getProfile sampleResolve (some "tok7") "cat" sampleUsers [] =
      .ok { user := { id := 2, username := "cat", following := [], followers := [7] },
            tweets := 0, isFollowing := false } ∧
    findUser sampleUsers 7 =
      some { id := 7, username := "dan", following := [2], followers := [] } ∧
    searchTweetsAnnotated sampleResolve (some "garbage") "hi" [sampleOrig] =
      .ok [{ tweet := sampleOrig, isLiked := false, isRetweeted := false }] ∧
    searchTweetsAnnotated sampleResolve (some "tok7") "hi" [sampleOrig] =
      .ok [{ tweet := sampleOrig, isLiked := true, isRetweeted := false }] :=
  ⟨rfl, rfl, by decide, rfl, rfl, rfl, rfl⟩

/-- C7 counterexample: with the single post "hi" stored, searching for
"." returns that post — `$regex` reads the query as a regular
expression whose dot matches any character — although "." is not a
case-insensitive substring of "hi": the claim as stated fails at
q = ".". -/
theorem searchTweets_regex_counterexample :
    searchTweets "." [sampleOrig] = .ok [sampleOrig] ∧
    substrCI ".".data "hi".data = false :=
  ⟨rfl, rfl⟩

theorem mem_insertDesc {t x : Tweet} {l : List Tweet} :
    x ∈ insertDesc t l ↔ x = t ∨ x ∈ l := by
  induction l with
  | nil => simp [insertDesc]
  | cons u us ih =>
    unfold insertDesc
    by_cases h : t.createdAt ≤ u.createdAt
    · rw [if_pos h]
      simp only [List.mem_cons, ih]
      tauto
    · rw [if_neg h]
      simp only [List.mem_cons]

theorem insertDesc_perm (t : Tweet) (l : List Tweet) :
    List.Perm (insertDesc t l) (t :: l) := by
  induction l with
  | nil => exact List.Perm.refl _
  | cons u us ih =>
    unfold insertDesc
    by_cases h : t.createdAt ≤ u.createdAt
    · rw [if_pos h]
      exact (ih.cons u).trans (List.Perm.swap t u us)
    · rw [if_neg h]

theorem sortDesc_perm (l : List Tweet) : List.Perm (sortDesc l) l := by
  induction l with
  | nil => exact List.Perm.refl _
  | cons t ts ih =>
    show List.Perm (insertDesc t (sortDesc ts)) (t :: ts)
    exact (insertDesc_perm t (sortDesc ts)).trans (ih.cons t)

theorem descSorted_insertDesc {t : Tweet} {l : List Tweet} (h : DescSorted l) :
    DescSorted (insertDesc t l) := by
  induction l with
  | nil => simp [insertDesc, DescSorted]
  | cons u us ih =>
    obtain ⟨hu, hus⟩ := List.pairwise_cons.mp h
    unfold insertDesc
    by_cases hc : t.createdAt ≤ u.createdAt
    · rw [if_pos hc]
      refine List.pairwise_cons.mpr ⟨?_, ih hus⟩
      intro b hb
      rcases mem_insertDesc.mp hb with rfl | hb'
      · exact hc
      · exact hu b hb'
    · rw [if_neg hc]
      refine List.pairwise_cons.mpr ⟨?_, h⟩
      intro b hb
      rcases List.mem_cons.mp hb with rfl | hb'
      · exact le_of_lt (lt_of_not_le hc)
      · exact le_trans (hu b hb') (le_of_lt (lt_of_not_le hc))

theorem sortDesc_sorted (l : List Tweet) : DescSorted (sortDesc l) := by
  induction l with
  | nil => exact List.Pairwise.nil
  | cons t ts ih =>
    show DescSorted (insertDesc t (sortDesc ts))
    exact descSorted_insertDesc ih

theorem matchesAt_lits (q s : List Char) :
    matchesAt (q.map RegexTok.lit) s = prefixCI q s := by
  induction q generalizing s with
  | nil => cases s <;> rfl
  | cons c cs ih =>
    cases s with
    | nil => rfl
    | cons d ds => simp [matchesAt, prefixCI, matchTok, ih]

theorem regexFind_lits (q s : List Char) :
    regexFind (q.map RegexTok.lit) s = substrCI q s := by
  induction s with
  | nil =>
    show matchesAt (q.map RegexTok.lit) [] = substrCI q []
    rw [matchesAt_lits]
    simp [substrCI]
  | cons c cs ih =>
    show (matchesAt (q.map RegexTok.lit) (c :: cs) || regexFind (q.map RegexTok.lit) cs) = _
    rw [matchesAt_lits, ih]
    simp [substrCI]

theorem parseQuery_plain {q : String} (h : ∀ c ∈ q.data, isPlainChar c = true) :
    parseQuery q = q.data.map RegexTok.lit := by
  unfold parseQuery
  apply List.map_congr_left
  intro c hc
  have hplain := h c hc
  have hne : ¬(c = '.') := by
    intro hEq
    rw [hEq] at hplain
    simp [isPlainChar] at hplain
  rw [if_neg hne]

theorem contentMatches_plain {q : String} (h : ∀ c ∈ q.data, isPlainChar c = true)
    (t : Tweet) : contentMatches q t = substrCI q.data t.content.data := by
  unfold contentMatches
  rw [parseQuery_plain h, regexFind_lits]

/-- C7 (amended): for a non-empty query containing no regex
metacharacter, the tweet search returns exactly the first 20 of the
non-reply posts whose content contains the query as a case-insensitive
substring, ordered newest first; the result is descending in creation
time, holds at most 20 posts, and when no more than 20 posts match it
is exactly the matching set. -/
theorem searchTweets_plain (q : String) (db : TweetStore) (hq : q ≠ "")
    (hplain : ∀ c ∈ q.data, isPlainChar c = true) :
    searchTweets q db =
      .ok ((sortDesc (db.filter
        (fun t => substrCI q.data t.content.data ∧ t.replyTo = none))).take 20) ∧
    DescSorted ((sortDesc (db.filter
      (fun t => substrCI q.data t.content.data ∧ t.replyTo = none))).take 20) ∧
    ((sortDesc (db.filter
      (fun t => substrCI q.data t.content.data ∧ t.replyTo = none))).take 20).length ≤ 20 ∧
    ((db.filter (fun t => substrCI q.data t.content.data ∧ t.replyTo = none)).length ≤ 20 →
      ∀ x : Tweet,
        x ∈ (sortDesc (db.filter
          (fun t => substrCI q.data t.content.data ∧ t.replyTo = none))).take 20 ↔
        x ∈ db ∧ substrCI q.data x.content.data = true ∧ x.replyTo = none) := by
  have hfe : db.filter (fun t => contentMatches q t ∧ t.replyTo = none) =
      db.filter (fun t => substrCI q.data t.content.data ∧ t.replyTo = none) := by
    apply List.filter_congr
    intro t _
    rw [contentMatches_plain hplain]
  refine ⟨?_, ?_, ?_, ?_⟩
  · unfold searchTweets
    rw [if_neg hq, hfe]
  · exact List.Pairwise.sublist (List.take_sublist _ _) (sortDesc_sorted _)
  · exact List.length_take_le _ _
  · intro hcap x
    have hlen : (sortDesc (db.filter
        (fun t => substrCI q.data t.content.data ∧ t.replyTo = none))).length ≤ 20 := by
      rw [(sortDesc_perm _).length_eq]
      exact hcap
    rw [List.take_of_length_le hlen, (sortDesc_perm _).mem_iff, List.mem_filter]
    simp

/-- C7 witness: the plain two-letter query "hi" runs through the
amended statement on the sample store. -/
theorem searchTweets_plain_witness :
    searchTweets "hi" [sampleOrig] =
      .ok ((sortDesc ([sampleOrig].filter
        (fun t => substrCI "hi".data t.content.data ∧ t.replyTo = none))).take 20) :=
  (searchTweets_plain "hi" [sampleOrig] (by decide) (by decide)).1

theorem timelineQuery_eq (viewer : UserRec) (p l : Nat) (db : TweetStore)
    (hp : p ≠ 0) (hl : l ≠ 0) :
    timelineQuery viewer (some p) (some l) db =
      ((sortDesc (db.filter
        (fun t => t.user ∈ viewer.following ++ [viewer.id] ∧ t.replyTo = none))).drop
          ((p - 1) * l)).take l := by
  cases p with
  | zero => exact absurd rfl hp
  | succ p' =>
    cases l with
    | zero => exact absurd rfl hl
    | succ l' => rfl

/-- C8: the timeline of a viewer with page p ≥ 1 and page size s ≥ 1
is exactly the window [(p−1)·s, p·s) of the non-reply posts authored by
`viewer.following ∪ {viewer}`, sorted newest first; omitting the
parameters is the same as `page=1, pageSize=10`; the result never
exceeds the page size and is descending in creation time. -/
theorem getTimeline_correct (viewer : UserRec) (p l : Nat) (db : TweetStore)
    (hp : p ≠ 0) (hl : l ≠ 0) :
    ((getTimeline viewer (some p) (some l) db).map (fun v => v.tweet) =
      ((sortDesc (db.filter
        (fun t => (t.user ∈ viewer.following ∨ t.user = viewer.id) ∧ t.replyTo = none))).drop
          ((p - 1) * l)).take l) ∧
    getTimeline viewer none none db = getTimeline viewer (some 1) (some 10) db ∧
    (getTimeline viewer (some p) (some l) db).length ≤ l ∧
    DescSorted ((getTimeline viewer (some p) (some l) db).map (fun v => v.tweet)) := by
  have hfe : db.filter (fun t => t.user ∈ viewer.following ++ [viewer.id] ∧ t.replyTo = none) =
      db.filter (fun t => (t.user ∈ viewer.following ∨ t.user = viewer.id) ∧ t.replyTo = none) := by
    apply List.filter_congr
    intro t _
    simp [List.mem_append]
  have hmain : (getTimeline viewer (some p) (some l) db).map (fun v => v.tweet) =
      ((sortDesc (db.filter
        (fun t => (t.user ∈ viewer.following ∨ t.user = viewer.id) ∧ t.replyTo = none))).drop
          ((p - 1) * l)).take l := by
    unfold getTimeline
    rw [List.map_map]
    have hid : ((fun v : TweetView => v.tweet) ∘ annotateFor viewer.id) = id := rfl
    rw [hid, List.map_id, timelineQuery_eq viewer p l db hp hl, hfe]
  refine ⟨hmain, rfl, ?_, ?_⟩
  · unfold getTimeline
    rw [List.length_map, timelineQuery_eq viewer p l db hp hl]
    exact List.length_take_le _ _
  · rw [hmain]
    exact List.Pairwise.sublist
      ((List.take_sublist _ _).trans (List.drop_sublist _ _)) (sortDesc_sorted _)

/-- C8 witness: page 1 of size 2 for a viewer following user 6 holds at
most two posts. -/
theorem getTimeline_correct_witness :
    (1 : Nat) ≠ 0 ∧ (2 : Nat) ≠ 0 ∧
      (getTimeline { id := 5, username := "eve", following := [6], followers := [] }
        (some 1) (some 2) sampleStore).length ≤ 2 :=
  ⟨by decide, by decide,
   (getTimeline_correct { id := 5, username := "eve", following := [6], followers := [] }
      1 2 sampleStore (by decide) (by decide)).2.2.1⟩
